import Mathlib

/-!
Verification of the nomad file-streaming client components.

The definitions below are a shallow embedding of the Go source:
  * `StreamFrame` / `StreamFrame.IsHeartbeat`  — the wire frame value
  * `streamDeliver`                            — the decode loop of `AllocFS.Stream`
  * `FrameReader` and its `read`               — `FrameReader.Read`
  * `StreamFrame.encodeJSON`                   — the `json:",omitempty"` wire encoding
  * `StreamFramer`                             — the writer-side batching state
    machine (its implementation file is not in the source tree; it is modelled
    from the specification, see its doc comment)

Go byte slices are modelled as `List Nat`, Go strings as `String`, Go `int64`
as `Int`, channels as the list of values they will deliver before being
closed, and a `chan struct\x7b\x7d` cancel signal as a `Bool` flag recording
whether it has been closed.
-/

namespace NomadFS

/-- Bytes are modelled as natural numbers. -/
abbrev Byte := Nat

/-- StreamFrame is used to frame data of a file when streaming.  All four
fields carry a `json:",omitempty"` tag in the source. -/
structure StreamFrame where
  Offset : Int
  Data : List Byte
  File : String
  FileEvent : String
deriving DecidableEq

/-- IsHeartbeat returns if the frame is a heartbeat frame:
`len(s.Data) == 0 && s.FileEvent == "" && s.File == "" && s.Offset == 0`. -/
def StreamFrame.IsHeartbeat (s : StreamFrame) : Bool :=
  s.Data.length == 0 && s.FileEvent == "" && s.File == "" && s.Offset == 0

/-- The body of the decode loop of `AllocFS.Stream`: each decoded frame is
discarded when it is a heartbeat (`continue`) and sent on the `frames`
channel otherwise.  The argument is the list of frames the decoder yields
before it errors, the result is the list delivered on the channel. -/
def streamDeliver : List StreamFrame → List StreamFrame
  | [] => []
  | fr :: rest => if fr.IsHeartbeat then streamDeliver rest else fr :: streamDeliver rest

/-- Embedding of Go `%q` quoting of a single character, as produced by
`strconv.Quote` on ASCII input (the event vocabulary is plain ASCII). -/
def goQuoteChar (c : Char) : String :=
  if c = '"' then "\\\""
  else if c = '\\' then "\\\\"
  else if c = Char.ofNat 7 then "\\a"
  else if c = Char.ofNat 8 then "\\b"
  else if c = Char.ofNat 9 then "\\t"
  else if c = Char.ofNat 10 then "\\n"
  else if c = Char.ofNat 11 then "\\v"
  else if c = Char.ofNat 12 then "\\f"
  else if c = Char.ofNat 13 then "\\r"
  else if c.toNat < 32 ∨ c.toNat = 127 then
    "\\x" ++ String.singleton (Nat.digitChar (c.toNat / 16)) ++
      String.singleton (Nat.digitChar (c.toNat % 16))
  else String.singleton c

/-- Embedding of Go `%q` applied to a string: the double-quoted, escaped form
produced by `strconv.Quote` (outer quotes included). -/
def goQuote (s : String) : String :=
  "\"" ++ String.join (s.toList.map goQuoteChar) ++ "\""

/-- The bytes of a string (ASCII — every byte used by this protocol's events
and markers is below 128, where Go's UTF-8 bytes coincide with code points). -/
def strBytes (s : String) : List Byte := s.toList.map Char.toNat

/-- The inline event marker built by `FrameReader.Read`:
`[]byte(fmt.Sprintf("\nnomad: %q\n", f.frame.FileEvent))`. -/
def eventMarker (e : String) : List Byte :=
  strBytes ("\n" ++ "nomad: " ++ goQuote e ++ "\n")

/-- FrameReader is used to convert a stream of frames into a read closer.
The `frames` channel is modelled as the list of frames it will deliver
before being closed; `cancelClosed` models whether the external `cancelCh`
has been closed. -/
structure FrameReader where
  frames : List StreamFrame
  cancelClosed : Bool
  closed : Bool
  frame : Option StreamFrame
  frameOffset : Nat
  fileEventOffset : Nat
  fileEvent : List Byte
  byteOffset : Int
deriving DecidableEq

/-- NewFrameReader takes a channel of frames and returns a FrameReader; every
other field starts at its zero value. -/
def NewFrameReader (frames : List StreamFrame) : FrameReader :=
  { frames := frames, cancelClosed := false, closed := false, frame := none,
    frameOffset := 0, fileEventOffset := 0, fileEvent := [], byteOffset := 0 }

/-- Offset returns the offset into the stream. -/
def FrameReader.Offset (f : FrameReader) : Int := f.byteOffset

/-- Result of one `Read` call: either `io.EOF` with zero bytes, or the bytes
copied into the caller's buffer together with a nil error. -/
inductive ReadResult where
  | eof
  | bytes (bs : List Byte)
deriving DecidableEq

/-- First block of the body of `Read`: initialize the event-marker buffer
when the current frame has a non-empty `FileEvent` and no marker is loaded. -/
def FrameReader.initEvent (f : FrameReader) (fr : StreamFrame) : FrameReader :=
  if fr.FileEvent ≠ "" ∧ f.fileEvent.length = 0 then
    { f with fileEvent := eventMarker fr.FileEvent, fileEventOffset := 0 }
  else f

/-- Block of `Read` clearing an exhausted event-marker buffer
(`if len(f.fileEvent) == f.fileEventOffset`). -/
def FrameReader.clearEvent (f : FrameReader) : FrameReader :=
  if f.fileEvent.length = f.fileEventOffset then
    { f with fileEvent := [], fileEventOffset := 0 }
  else f

/-- Final block of `Read`: `n = copy(p, f.frame.Data[f.frameOffset:])`,
advance `frameOffset`, and clear the current frame once all of its data has
been read.  `cap` is the length of the caller's buffer `p`. -/
def FrameReader.copyData (f : FrameReader) (fr : StreamFrame) (cap : Nat) :
    ReadResult × FrameReader :=
  (ReadResult.bytes ((fr.Data.drop f.frameOffset).take cap),
   if fr.Data.length = f.frameOffset + ((fr.Data.drop f.frameOffset).take cap).length then
     { f with frame := none, frameOffset := 0 }
   else
     { f with frameOffset := f.frameOffset + ((fr.Data.drop f.frameOffset).take cap).length })

/-- Body of `Read` once a current frame `fr` is in place (source lines
385-412): initialize the marker, inject marker bytes if any are unread,
otherwise clear an exhausted marker and copy frame data. -/
def FrameReader.readBody (f : FrameReader) (fr : StreamFrame) (cap : Nat) :
    ReadResult × FrameReader :=
  if (f.initEvent fr).fileEvent.length ≠ 0 ∧
      (f.initEvent fr).fileEvent.length ≠ (f.initEvent fr).fileEventOffset then
    (ReadResult.bytes
      (((f.initEvent fr).fileEvent.drop (f.initEvent fr).fileEventOffset).take cap),
     { f.initEvent fr with fileEventOffset :=
        (f.initEvent fr).fileEventOffset +
          (((f.initEvent fr).fileEvent.drop (f.initEvent fr).fileEventOffset).take cap).length })
  else
    ((f.initEvent fr).clearEvent).copyData fr cap

/-- `FrameReader.Read` with a caller buffer of capacity `cap`: when no
current frame is buffered, take one from the channel (returning `io.EOF` if
the channel is closed, i.e. the list is exhausted) and record its offset in
`byteOffset`; then run the body. -/
def FrameReader.read (f : FrameReader) (cap : Nat) : ReadResult × FrameReader :=
  match f.frame with
  | some fr => f.readBody fr cap
  | none =>
    match f.frames with
    | [] => (ReadResult.eof, f)
    | fr :: rest =>
      FrameReader.readBody
        { f with frames := rest, frame := some fr, byteOffset := fr.Offset } fr cap

/-- Close cancels the stream of frames.  `none` models the `panic` Go would
raise on closing an already-closed channel; `some f'` models a nil-error
return with the post state. -/
def FrameReader.close (f : FrameReader) : Option FrameReader :=
  if f.closed then some f
  else if f.cancelClosed then none
  else some { f with cancelClosed := true, closed := true }

/-- Iterated `close`: `n` further calls, propagating a panic. -/
def FrameReader.closeIter : Nat → FrameReader → Option FrameReader
  | 0, f => some f
  | Nat.succ n, f => (f.close).bind (FrameReader.closeIter n)

/-- Repeated `Read` calls with buffer capacity `cap`, keeping only the final
reader state. -/
def FrameReader.readN (cap : Nat) : Nat → FrameReader → FrameReader
  | 0, f => f
  | Nat.succ n, f => FrameReader.readN cap n (f.read cap).2

/-- Concatenation of the bytes returned by successive `Read` calls with
buffer capacity `cap`, until `Read` returns `io.EOF`; `none` if EOF is not
reached within `fuel` calls. -/
def FrameReader.readAll (cap : Nat) : Nat → FrameReader → Option (List Byte)
  | 0, _ => none
  | Nat.succ fuel, f =>
    match f.read cap with
    | (ReadResult.eof, _) => some []
    | (ReadResult.bytes bs, f') =>
      (FrameReader.readAll cap fuel f').map (fun out => bs ++ out)

/-- The per-frame contribution the specification expects from the reader:
the inline event marker (when the frame's event is non-empty) followed by
the frame's data bytes. -/
def frameBytes (fr : StreamFrame) : List Byte :=
  (if fr.FileEvent ≠ "" then eventMarker fr.FileEvent else []) ++ fr.Data

/-- The byte stream the specification expects for a whole frame sequence. -/
def expectedOutput (fs : List StreamFrame) : List Byte :=
  (fs.map frameBytes).flatten

/-- Concrete reader state used to witness claim C4. -/
def markerDemo : FrameReader :=
  { frames := [], cancelClosed := false, closed := false,
    frame := some ⟨0, [], "f", "file truncated"⟩, frameOffset := 0,
    fileEventOffset := 0, fileEvent := [], byteOffset := 0 }

/-- Concrete reader state used to witness claim C10: an event-only frame
whose marker has just been fully read. -/
def eventOnlyDemo : FrameReader :=
  ((NewFrameReader [⟨5, [], "f", "file truncated"⟩]).read 100).2

/-- JSON string escaping of one character as `encoding/json` performs it:
quote, backslash, the HTML-escaped characters, and control characters. -/
def jsonQuoteChar (c : Char) : String :=
  if c = '"' then "\\\""
  else if c = '\\' then "\\\\"
  else if c = Char.ofNat 10 then "\\n"
  else if c = Char.ofNat 13 then "\\r"
  else if c = Char.ofNat 9 then "\\t"
  else if c.toNat < 32 ∨ c = '<' ∨ c = '>' ∨ c = '&' then
    "\\u00" ++ String.singleton (Nat.digitChar (c.toNat / 16)) ++
      String.singleton (Nat.digitChar (c.toNat % 16))
  else String.singleton c

/-- JSON string encoding (outer quotes included). -/
def jsonQuote (s : String) : String :=
  "\"" ++ String.join (s.toList.map jsonQuoteChar) ++ "\""

/-- Standard base64 alphabet character for a 6-bit value. -/
def b64Char (n : Nat) : Char :=
  "ABCDEFGHIJKLMNOPQRSTUVWXYZabcdefghijklmnopqrstuvwxyz0123456789+/".toList.getD n 'A'

/-- Standard base64 encoding with padding, as Go encodes a `[]byte` in JSON. -/
def base64Encode : List Byte → String
  | [] => ""
  | [a] =>
    String.mk [b64Char (a / 4), b64Char (a % 4 * 16), '=', '=']
  | [a, b] =>
    String.mk [b64Char (a / 4), b64Char (a % 4 * 16 + b / 16), b64Char (b % 16 * 4), '=']
  | a :: b :: c :: rest =>
    String.mk [b64Char (a / 4), b64Char (a % 4 * 16 + b / 16),
      b64Char (b % 16 * 4 + c / 64), b64Char (c % 64)] ++ base64Encode rest

/-- The key/value pairs the JSON encoder emits for a `StreamFrame`: each of
the four fields carries `json:",omitempty"`, so it is omitted when at its
zero/empty value. -/
def StreamFrame.jsonFields (s : StreamFrame) : List (String × String) :=
  (if s.Offset = 0 then [] else [("Offset", toString s.Offset)]) ++
  (if s.Data = [] then [] else [("Data", jsonQuote (base64Encode s.Data))]) ++
  (if s.File = "" then [] else [("File", jsonQuote s.File)]) ++
  (if s.FileEvent = "" then [] else [("FileEvent", jsonQuote s.FileEvent)])

/-- The JSON wire encoding of a `StreamFrame`. -/
def StreamFrame.encodeJSON (s : StreamFrame) : String :=
  "\x7b" ++
    String.intercalate ","
      (s.jsonFields.map (fun kv => jsonQuote kv.1 ++ ":" ++ kv.2)) ++ "\x7d"

/-- Modelled from the spec: the StreamFramer's mutable state restricted to
what `Send`/`Flush` touch — the frame-size threshold `F`, the pending frame
being accumulated, and the (order-preserving) list of frames written to the
sink so far.  The implementation file (`command/agent/fs_endpoint.go`) is
not among the sources; only its tests are.  Timers, heartbeating and the
error slot play no part in the batching algorithm of §4.1 modelled here. -/
structure StreamFramer where
  frameSize : Nat
  pending : Option StreamFrame
  out : List StreamFrame

/-- Modelled from the spec: `Flush` writes the pending frame through the
sink encoder, if any, and resets the pending frame (§4.1 Flush). -/
def StreamFramer.Flush (sf : StreamFramer) : StreamFramer :=
  match sf.pending with
  | none => sf
  | some p => { sf with out := sf.out ++ [p], pending := none }

/-- Modelled from the spec: `Send(file, event, data, offset)` (§4.1 Batching
algorithm).  1. A pending frame with a different `(file, event)` key is
flushed first.  2. With no pending frame, a new one is created carrying the
given offset and data.  3. Otherwise data is appended; the offset is never
updated.  4. If the accumulated data has reached `F` bytes, flush
immediately. -/
def StreamFramer.Send (sf : StreamFramer) (file event : String)
    (data : List Byte) (offset : Int) : StreamFramer :=
  let sf1 :=
    match sf.pending with
    | some p => if p.File ≠ file ∨ p.FileEvent ≠ event then sf.Flush else sf
    | none => sf
  let sf2 :=
    match sf1.pending with
    | none => { sf1 with pending := some ⟨offset, data, file, event⟩ }
    | some p => { sf1 with pending := some { p with Data := p.Data ++ data } }
  match sf2.pending with
  | some p => if sf2.frameSize ≤ p.Data.length then sf2.Flush else sf2
  | none => sf2

/-- Framer used to witness claim C9, with frame size `F = 3` as in
`TestStreamFramer_Batch`. -/
def batchDemo0 : StreamFramer := ⟨3, none, []⟩

/-- The witness framer after `Send("foo", "bar", [0x0a], 10)` — one byte, so
the frame size is not yet hit. -/
def batchDemo1 : StreamFramer := batchDemo0.Send "foo" "bar" [10] 10

/-- `Drains cap f out t`: starting from reader state `f`, some finite
sequence of `Read` calls with buffer capacity `cap`, none of which returns
`io.EOF`, produces exactly the bytes `out` and ends in state `t`. -/
inductive Drains (cap : Nat) : FrameReader → List Byte → FrameReader → Prop where
  | refl (f : FrameReader) : Drains cap f [] f
  | step {f f₁ f₂ : FrameReader} {bs out : List Byte} :
      f.read cap = (ReadResult.bytes bs, f₁) → Drains cap f₁ out f₂ →
      Drains cap f (bs ++ out) f₂

/-! ## Theorems -/

/-- Characterization of `IsHeartbeat`: true exactly when all four fields are
at their zero values. -/
theorem isHeartbeat_spec (s : StreamFrame) :
    s.IsHeartbeat = true ↔
      (s.Data = [] ∧ s.File = "" ∧ s.FileEvent = "" ∧ s.Offset = 0) := by
  simp only [StreamFrame.IsHeartbeat, Bool.and_eq_true, beq_iff_eq,
    List.length_eq_zero]
  tauto

/-- Claim C2: `IsHeartbeat` returns true iff all four fields are at their
zero values (empty data, empty file, empty event, zero offset); any frame
with a non-zero field is not a heartbeat. -/
theorem claim2_isHeartbeat_iff_zero (s : StreamFrame) :
    s.IsHeartbeat = true ↔
      (s.Data = [] ∧ s.File = "" ∧ s.FileEvent = "" ∧ s.Offset = 0) :=
  isHeartbeat_spec s

/-- Claim C3: the client-side `Stream` decode loop delivers exactly the
non-heartbeat frames, in order — every heartbeat is discarded, every
non-heartbeat frame is delivered. -/
theorem claim3_stream_discards_heartbeats (fs : List StreamFrame) :
    streamDeliver fs = fs.filter (fun fr => !fr.IsHeartbeat) := by
  induction fs with
  | nil => rfl
  | cons fr rest ih =>
    by_cases h : fr.IsHeartbeat = true
    · simp [streamDeliver, h, ih]
    · simp only [Bool.not_eq_true] at h
      simp [streamDeliver, h, ih]

/-- The event marker always starts with the newline byte, so it is never
empty. -/
theorem eventMarker_ne_nil (e : String) : eventMarker e ≠ [] := by
  simp only [eventMarker, strBytes, ne_eq, List.map_eq_nil_iff]
  intro h
  have h2 := congrArg List.length h
  simp only [String.toList, String.data_append, List.length_append,
    List.length_cons, List.length_nil] at h2
  omega

/-- `initEvent` does nothing when a marker is already loaded. -/
theorem initEvent_of_marker_loaded (f : FrameReader) (fr : StreamFrame)
    (h : f.fileEvent ≠ []) : f.initEvent fr = f := by
  unfold FrameReader.initEvent
  rw [if_neg]
  simp [List.length_eq_zero, h]

/-- `initEvent` does nothing when the current frame has no event. -/
theorem initEvent_of_no_event (f : FrameReader) (fr : StreamFrame)
    (h : fr.FileEvent = "") : f.initEvent fr = f := by
  unfold FrameReader.initEvent
  rw [if_neg]
  simp [h]

/-- `initEvent` loads the marker when the frame has an event and no marker
is loaded. -/
theorem initEvent_fresh (f : FrameReader) (fr : StreamFrame)
    (h1 : fr.FileEvent ≠ "") (h2 : f.fileEvent = []) :
    f.initEvent fr =
      { f with fileEvent := eventMarker fr.FileEvent, fileEventOffset := 0 } := by
  unfold FrameReader.initEvent
  rw [if_pos ⟨h1, by simp [h2]⟩]

/-- `clearEvent` resets an exhausted marker buffer. -/
theorem clearEvent_done (f : FrameReader)
    (h : f.fileEvent.length = f.fileEventOffset) :
    f.clearEvent = { f with fileEvent := [], fileEventOffset := 0 } := by
  unfold FrameReader.clearEvent
  rw [if_pos h]

/-- `readBody` in the marker-injection branch. -/
theorem readBody_marker (f : FrameReader) (fr : StreamFrame) (cap : Nat)
    (g : FrameReader) (hg : f.initEvent fr = g)
    (h1 : g.fileEvent.length ≠ 0) (h2 : g.fileEvent.length ≠ g.fileEventOffset) :
    f.readBody fr cap =
      (ReadResult.bytes ((g.fileEvent.drop g.fileEventOffset).take cap),
       { g with fileEventOffset :=
          g.fileEventOffset + ((g.fileEvent.drop g.fileEventOffset).take cap).length }) := by
  unfold FrameReader.readBody
  rw [hg, if_pos ⟨h1, h2⟩]

/-- `readBody` when no marker bytes are pending: clear the marker and copy
frame data. -/
theorem readBody_noMarker (f : FrameReader) (fr : StreamFrame) (cap : Nat)
    (g : FrameReader) (hg : f.initEvent fr = g)
    (hcond : ¬(g.fileEvent.length ≠ 0 ∧ g.fileEvent.length ≠ g.fileEventOffset)) :
    f.readBody fr cap = (g.clearEvent).copyData fr cap := by
  unfold FrameReader.readBody
  rw [hg, if_neg hcond]

/-- `copyData` when the copy reaches the end of the frame's data: the
current frame is cleared. -/
theorem copyData_finish (f : FrameReader) (fr : StreamFrame) (cap : Nat)
    (h : fr.Data.length = f.frameOffset + ((fr.Data.drop f.frameOffset).take cap).length) :
    f.copyData fr cap =
      (ReadResult.bytes ((fr.Data.drop f.frameOffset).take cap),
       { f with frame := none, frameOffset := 0 }) := by
  unfold FrameReader.copyData
  rw [if_pos h]

/-- `copyData` when data remains after the copy: only the offset advances. -/
theorem copyData_partial (f : FrameReader) (fr : StreamFrame) (cap : Nat)
    (h : ¬fr.Data.length = f.frameOffset + ((fr.Data.drop f.frameOffset).take cap).length) :
    f.copyData fr cap =
      (ReadResult.bytes ((fr.Data.drop f.frameOffset).take cap),
       { f with frameOffset :=
          f.frameOffset + ((fr.Data.drop f.frameOffset).take cap).length }) := by
  unfold FrameReader.copyData
  rw [if_neg h]

/-- `read` with a current frame runs the body directly. -/
theorem read_some (f : FrameReader) (fr : StreamFrame) (cap : Nat)
    (h : f.frame = some fr) : f.read cap = f.readBody fr cap := by
  unfold FrameReader.read
  rw [h]

/-- `read` with no current frame and a closed channel. -/
theorem read_eof (f : FrameReader) (cap : Nat)
    (h1 : f.frame = none) (h2 : f.frames = []) :
    f.read cap = (ReadResult.eof, f) := by
  simp [FrameReader.read, h1, h2]

/-- `read` with no current frame receives the next frame, records its
offset, and runs the body on the updated state. -/
theorem read_recv (f : FrameReader) (fr : StreamFrame) (rest : List StreamFrame)
    (cap : Nat) (h1 : f.frame = none) (h2 : f.frames = fr :: rest) :
    f.read cap =
      FrameReader.readBody
        { f with frames := rest, frame := some fr, byteOffset := fr.Offset } fr cap := by
  simp [FrameReader.read, h1, h2]

/-- `readBody` never touches `byteOffset`. -/
theorem readBody_byteOffset (f : FrameReader) (fr : StreamFrame) (cap : Nat) :
    ((f.readBody fr cap).2).byteOffset = f.byteOffset := by
  simp only [FrameReader.readBody, FrameReader.initEvent, FrameReader.clearEvent,
    FrameReader.copyData]
  split_ifs <;> rfl

/-- Claim C5: a `Read` with no buffered frame and a closed (exhausted) frame
channel returns zero bytes with `io.EOF` and leaves the reader unchanged. -/
theorem claim5_read_eof (f : FrameReader) (cap : Nat)
    (h1 : f.frame = none) (h2 : f.frames = []) :
    f.read cap = (ReadResult.eof, f) :=
  read_eof f cap h1 h2

/-- Witness for claim C5 at a concrete reader. -/
theorem claim5_witness :
    (NewFrameReader []).read 5 = (ReadResult.eof, NewFrameReader []) :=
  claim5_read_eof (NewFrameReader []) 5 rfl rfl

/-- Claim C6: `Close` is idempotent — the first call closes the external
cancel channel (returning a nil error), and any number of further calls
return nil without closing again, so no call panics on a doubly-closed
channel. -/
theorem claim6_close_idempotent (f : FrameReader)
    (h1 : f.closed = false) (h2 : f.cancelClosed = false) :
    ∃ f', f.close = some f' ∧ f'.cancelClosed = true ∧ f'.closed = true ∧
      ∀ n, FrameReader.closeIter n f' = some f' := by
  refine ⟨{ f with cancelClosed := true, closed := true }, ?_, rfl, rfl, ?_⟩
  · simp [FrameReader.close, h1, h2]
  · intro n
    induction n with
    | zero => rfl
    | succ n ih =>
      simp only [FrameReader.closeIter, FrameReader.close, if_pos rfl,
        Option.some_bind]
      exact ih

/-- Witness for claim C6 at a concrete reader. -/
theorem claim6_witness :
    ∃ f', (NewFrameReader []).close = some f' ∧ f'.cancelClosed = true ∧
      f'.closed = true ∧ ∀ n, FrameReader.closeIter n f' = some f' :=
  claim6_close_idempotent (NewFrameReader []) rfl rfl

/-- Claim C7 as stated is false: `Read` stores the offset of EVERY frame it
takes from the channel in `byteOffset`, so after two frames with offsets 3
and 9 have been consumed, `Offset()` returns 9, not the first frame's 3. -/
theorem claim7_counterexample :
    (FrameReader.readN 4 2
        (NewFrameReader [⟨3, [7], "f", ""⟩, ⟨9, [8], "f", ""⟩])).Offset = 9 ∧
      ((9 : Int) ≠ 3) := by
  exact ⟨by decide, by decide⟩

/-- Claim C7, amended: whenever `Read` takes a frame from the channel it
overwrites `byteOffset`, so `Offset()` returns the `Offset` field of the
most recently received frame (not the first one). -/
theorem claim7_amended_offset_latest (f : FrameReader) (cap : Nat)
    (fr : StreamFrame) (rest : List StreamFrame)
    (h1 : f.frame = none) (h2 : f.frames = fr :: rest) :
    ((f.read cap).2).Offset = fr.Offset := by
  rw [FrameReader.Offset, read_recv f fr rest cap h1 h2, readBody_byteOffset]

/-- Witness for the amended claim C7 at a concrete reader. -/
theorem claim7_witness :
    (((NewFrameReader [⟨3, [7], "f", ""⟩]).read 4).2).Offset = (3 : Int) :=
  claim7_amended_offset_latest (NewFrameReader [⟨3, [7], "f", ""⟩]) 4
    ⟨3, [7], "f", ""⟩ [] rfl rfl

/-- Claim C4: when a frame with a non-empty `FileEvent` is current and no
marker is loaded, `Read` initializes the event-marker buffer to exactly
`"\nnomad: " ++ goQuote event ++ "\n"` — a leading newline, the token
`nomad: `, the Go `%q`-quoted event name, and a trailing newline. -/
theorem claim4_event_marker_format (f : FrameReader) (fr : StreamFrame)
    (cap : Nat) (h1 : f.frame = some fr) (h2 : fr.FileEvent ≠ "")
    (h3 : f.fileEvent = []) :
    ((f.read cap).2).fileEvent =
      strBytes ("\n" ++ "nomad: " ++ goQuote fr.FileEvent ++ "\n") := by
  have hlen : (eventMarker fr.FileEvent).length ≠ 0 := by
    simpa [List.length_eq_zero] using eventMarker_ne_nil fr.FileEvent
  rw [read_some f fr cap h1,
    readBody_marker f fr cap _ (initEvent_fresh f fr h2 h3) hlen hlen]
  rfl

/-- Witness for claim C4: the marker for `file truncated` is the literal
byte string `"\nnomad: \"file truncated\"\n"`. -/
theorem claim4_witness :
    ((markerDemo.read 5).2).fileEvent = strBytes "\nnomad: \"file truncated\"\n" := by
  rw [claim4_event_marker_format markerDemo ⟨0, [], "f", "file truncated"⟩ 5
    rfl (by decide) rfl]
  decide

/-- One `Read` on a current frame whose data is empty, once the injected
event marker has been fully drained: it returns zero bytes with a nil error
and clears both the marker and the current frame. -/
theorem read_eventOnly_done (f : FrameReader) (fr : StreamFrame) (cap : Nat)
    (h1 : f.frame = some fr) (h2 : fr.Data = []) (h3 : f.fileEvent ≠ [])
    (h4 : f.fileEventOffset = f.fileEvent.length) (h5 : f.frameOffset = 0) :
    f.read cap = (ReadResult.bytes [],
      { f with fileEvent := [], fileEventOffset := 0, frame := none,
               frameOffset := 0 }) := by
  rw [read_some f fr cap h1,
    readBody_noMarker f fr cap f (initEvent_of_marker_loaded f fr h3)
      (fun hcontra => hcontra.2 h4.symm),
    clearEvent_done f h4.symm,
    copyData_finish _ fr cap (by simp [h2, h5])]
  simp [h2]

/-- Claim C10: for an event-only frame (non-empty `FileEvent`, empty
`Data`), once the injected marker is fully drained the next `Read` returns
zero bytes with a nil error — not `io.EOF` — and clears the current frame. -/
theorem claim10_event_only_zero_read (f : FrameReader) (fr : StreamFrame)
    (cap : Nat) (h1 : f.frame = some fr) (_he : fr.FileEvent ≠ "")
    (h2 : fr.Data = []) (h3 : f.fileEvent ≠ [])
    (h4 : f.fileEventOffset = f.fileEvent.length) (h5 : f.frameOffset = 0) :
    (f.read cap).1 = ReadResult.bytes [] ∧ ((f.read cap).2).frame = none := by
  rw [read_eventOnly_done f fr cap h1 h2 h3 h4 h5]
  exact ⟨rfl, rfl⟩

/-- Witness for claim C10 at `eventOnlyDemo`. -/
theorem claim10_witness :
    (eventOnlyDemo.read 100).1 = ReadResult.bytes [] ∧
      ((eventOnlyDemo.read 100).2).frame = none :=
  claim10_event_only_zero_read eventOnlyDemo ⟨5, [], "f", "file truncated"⟩ 100
    (by decide) (by decide) (by decide) (by decide) (by decide) (by decide)

/-- Claim C1 as stated is false: for the single non-heartbeat frame
`⟨10, [1, 2], "foo", "bar"⟩` (non-empty event AND non-empty data) read with
a 1-byte buffer, the inline marker is re-injected before every data chunk,
so the concatenated stream differs from "marker then data". -/
theorem claim1_counterexample :
    FrameReader.readAll 1 40 (NewFrameReader [⟨10, [1, 2], "foo", "bar"⟩]) =
        some (eventMarker "bar" ++ [1] ++ eventMarker "bar" ++ [2]) ∧
      eventMarker "bar" ++ [1] ++ eventMarker "bar" ++ [2] ≠
        expectedOutput [⟨10, [1, 2], "foo", "bar"⟩] := by
  exact ⟨by decide, by decide⟩

/-- A take is unchanged when its count is replaced by its actual length. -/
theorem take_eq_take_length {α : Type} (l : List α) (c : Nat) :
    l.take c = l.take ((l.take c).length) := by
  rw [List.length_take]
  rcases Nat.le_total c l.length with h | h
  · rw [Nat.min_eq_left h]
  · rw [Nat.min_eq_right h, List.take_length, List.take_of_length_le h]

/-- Splitting a drop into the chunk served by one copy and the remainder. -/
theorem chunk_split {α : Type} (l : List α) (m c : Nat) :
    l.drop m = (l.drop m).take c ++ l.drop (m + ((l.drop m).take c).length) := by
  conv_lhs => rw [← List.drop_take_append_drop l m (((l.drop m).take c).length)]
  rw [← take_eq_take_length]

/-- `Drains` runs compose. -/
theorem Drains.trans {cap : Nat} {f g u : FrameReader} {a b : List Byte} :
    Drains cap f a g → Drains cap g b u → Drains cap f (a ++ b) u := by
  intro hab
  induction hab with
  | refl f => intro hbc; simpa using hbc
  | step hr _ ih =>
    intro hbc
    rw [List.append_assoc]
    exact Drains.step hr (ih hbc)

/-- A `Drains` run ending in a state with no frame and a closed channel is
exactly what `readAll` computes, for any sufficient fuel. -/
theorem drains_readAll {cap : Nat} {f t : FrameReader} {out : List Byte}
    (hd : Drains cap f out t) :
    t.frame = none → t.frames = [] →
      ∃ fuel, ∀ g, fuel ≤ g → FrameReader.readAll cap g f = some out := by
  induction hd with
  | refl f =>
    intro h1 h2
    refine ⟨1, fun g hg => ?_⟩
    obtain ⟨g', rfl⟩ : ∃ g', g = g' + 1 := ⟨g - 1, by omega⟩
    simp [FrameReader.readAll, read_eof f cap h1 h2]
  | step hr _ ih =>
    intro h1 h2
    obtain ⟨fuel, hf⟩ := ih h1 h2
    refine ⟨fuel + 1, fun g hg => ?_⟩
    obtain ⟨g', rfl⟩ : ∃ g', g = g' + 1 := ⟨g - 1, by omega⟩
    simp [FrameReader.readAll, hr, hf g' (by omega)]

/-- Draining the loaded event marker: from any state whose current frame is
`fr` and whose marker has `k` unread bytes, positive-capacity reads emit
exactly the remaining marker bytes and advance the marker offset to its
length. -/
theorem marker_drain (cap : Nat) (hc : 0 < cap) :
    ∀ (k : Nat) (s : FrameReader) (fr : StreamFrame), s.frame = some fr →
      s.fileEvent ≠ [] → s.fileEventOffset + k = s.fileEvent.length →
      Drains cap s (s.fileEvent.drop s.fileEventOffset)
        { s with fileEventOffset := s.fileEvent.length } := by
  intro k
  induction k using Nat.strong_induction_on with
  | _ k ih =>
    intro s fr h1 h3 hk
    obtain ⟨sfs, scc, scl, sfr, sfo, sfeo, sfe, sbo⟩ := s
    replace h1 : sfr = some fr := h1
    replace h3 : sfe ≠ [] := h3
    replace hk : sfeo + k = sfe.length := hk
    subst h1
    show Drains cap ⟨sfs, scc, scl, some fr, sfo, sfeo, sfe, sbo⟩
      (sfe.drop sfeo) ⟨sfs, scc, scl, some fr, sfo, sfe.length, sfe, sbo⟩
    rcases Nat.eq_zero_or_pos k with rfl | hkpos
    · have hoff : sfeo = sfe.length := by omega
      subst hoff
      rw [List.drop_length]
      exact Drains.refl _
    · have hlen : sfe.length ≠ 0 := by simpa [List.length_eq_zero] using h3
      have hne : sfe.length ≠ sfeo := by omega
      have hread : (⟨sfs, scc, scl, some fr, sfo, sfeo, sfe, sbo⟩ : FrameReader).read cap =
          (ReadResult.bytes ((sfe.drop sfeo).take cap),
           ⟨sfs, scc, scl, some fr, sfo, sfeo + ((sfe.drop sfeo).take cap).length,
            sfe, sbo⟩) := by
        rw [read_some _ fr cap rfl,
          readBody_marker _ fr cap _ (initEvent_of_marker_loaded _ fr h3) hlen hne]
      have hn : ((sfe.drop sfeo).take cap).length = min cap k := by
        rw [List.length_take, List.length_drop]
        omega
      have ihap := ih (k - ((sfe.drop sfeo).take cap).length) (by omega)
        ⟨sfs, scc, scl, some fr, sfo, sfeo + ((sfe.drop sfeo).take cap).length, sfe, sbo⟩
        fr rfl h3 (by show sfeo + _ + _ = sfe.length; omega)
      rw [chunk_split sfe sfeo cap]
      exact Drains.step hread ihap

/-- Draining the current frame's data: from any state whose current frame
`fr` has no event, an empty marker buffer and `k` unread data bytes,
positive-capacity reads emit exactly the remaining data and clear the
frame. -/
theorem data_drain (cap : Nat) (hc : 0 < cap) :
    ∀ (k : Nat) (s : FrameReader) (fr : StreamFrame), s.frame = some fr →
      fr.FileEvent = "" → s.fileEvent = [] → s.fileEventOffset = 0 →
      s.frameOffset + k = fr.Data.length →
      Drains cap s (fr.Data.drop s.frameOffset)
        { s with frame := none, frameOffset := 0 } := by
  intro k
  induction k using Nat.strong_induction_on with
  | _ k ih =>
    intro s fr h1 hev hfe hfo hk
    obtain ⟨sfs, scc, scl, sfr, sfo, sfeo, sfe, sbo⟩ := s
    replace h1 : sfr = some fr := h1
    replace hfe : sfe = [] := hfe
    replace hfo : sfeo = 0 := hfo
    replace hk : sfo + k = fr.Data.length := hk
    subst h1 hfe hfo
    show Drains cap ⟨sfs, scc, scl, some fr, sfo, 0, [], sbo⟩
      (fr.Data.drop sfo) ⟨sfs, scc, scl, none, 0, 0, [], sbo⟩
    have hread0 : (⟨sfs, scc, scl, some fr, sfo, 0, [], sbo⟩ : FrameReader).read cap =
        (⟨sfs, scc, scl, some fr, sfo, 0, [], sbo⟩ : FrameReader).copyData fr cap := by
      rw [read_some _ fr cap rfl,
        readBody_noMarker _ fr cap _ (initEvent_of_no_event _ fr hev) (by simp),
        clearEvent_done _ (by simp)]
    have hn : ((fr.Data.drop sfo).take cap).length = min cap k := by
      rw [List.length_take, List.length_drop]
      omega
    by_cases hfin : fr.Data.length = sfo + ((fr.Data.drop sfo).take cap).length
    · have hcd := copyData_finish
        (⟨sfs, scc, scl, some fr, sfo, 0, [], sbo⟩ : FrameReader) fr cap hfin
      have hchunk : (fr.Data.drop sfo).take cap = fr.Data.drop sfo := by
        apply List.take_of_length_le
        rw [List.length_drop]
        omega
      rw [show fr.Data.drop sfo = (fr.Data.drop sfo).take cap ++ ([] : List Byte) from by
        rw [hchunk, List.append_nil]]
      exact Drains.step (hread0.trans hcd) (Drains.refl _)
    · have hcd := copyData_partial
        (⟨sfs, scc, scl, some fr, sfo, 0, [], sbo⟩ : FrameReader) fr cap hfin
      have hkpos : 0 < k := by omega
      have ihap := ih (k - ((fr.Data.drop sfo).take cap).length) (by omega)
        ⟨sfs, scc, scl, some fr, sfo + ((fr.Data.drop sfo).take cap).length, 0, [], sbo⟩
        fr rfl hev rfl rfl (by show sfo + _ + _ = fr.Data.length; omega)
      rw [chunk_split fr.Data sfo cap]
      exact Drains.step (hread0.trans hcd) ihap

/-- Consuming one whole frame from a quiescent reader state: the reads emit
exactly `frameBytes fr` — provided a frame carrying an event carries no
data. -/
theorem frame_drain (cap : Nat) (hc : 0 < cap) (fr : StreamFrame)
    (rest : List StreamFrame) (scc scl : Bool) (sbo : Int)
    (hev : fr.FileEvent ≠ "" → fr.Data = []) :
    Drains cap ⟨fr :: rest, scc, scl, none, 0, 0, [], sbo⟩ (frameBytes fr)
      ⟨rest, scc, scl, none, 0, 0, [], fr.Offset⟩ := by
  by_cases hB : fr.FileEvent = ""
  · have hfb : frameBytes fr = fr.Data := by simp [frameBytes, hB]
    rw [hfb]
    have hrecv : (⟨fr :: rest, scc, scl, none, 0, 0, [], sbo⟩ : FrameReader).read cap =
        (⟨rest, scc, scl, some fr, 0, 0, [], fr.Offset⟩ : FrameReader).copyData fr cap := by
      rw [read_recv _ fr rest cap rfl rfl,
        readBody_noMarker _ fr cap _ (initEvent_of_no_event _ fr hB) (by simp),
        clearEvent_done _ (by simp)]
    have hn : ((fr.Data.drop 0).take cap).length = min cap fr.Data.length := by
      rw [List.length_take, List.length_drop]
      omega
    by_cases hfin : fr.Data.length = 0 + ((fr.Data.drop 0).take cap).length
    · have hcd := copyData_finish
        (⟨rest, scc, scl, some fr, 0, 0, [], fr.Offset⟩ : FrameReader) fr cap hfin
      have hchunk : (fr.Data.drop 0).take cap = fr.Data := by
        rw [List.drop_zero]
        apply List.take_of_length_le
        omega
      rw [show fr.Data = (fr.Data.drop 0).take cap ++ ([] : List Byte) from by
        rw [hchunk, List.append_nil]]
      exact Drains.step (hrecv.trans hcd) (Drains.refl _)
    · have hcd := copyData_partial
        (⟨rest, scc, scl, some fr, 0, 0, [], fr.Offset⟩ : FrameReader) fr cap hfin
      have hdd := data_drain cap hc (fr.Data.length - ((fr.Data.drop 0).take cap).length)
        ⟨rest, scc, scl, some fr, 0 + ((fr.Data.drop 0).take cap).length, 0, [], fr.Offset⟩
        fr rfl hB rfl rfl (by show 0 + _ + _ = fr.Data.length; omega)
      have hsplit : fr.Data =
          (fr.Data.drop 0).take cap ++
            fr.Data.drop (0 + ((fr.Data.drop 0).take cap).length) := by
        conv_lhs => rw [← List.drop_zero fr.Data]
        exact chunk_split fr.Data 0 cap
      rw [hsplit]
      exact Drains.step (hrecv.trans hcd) hdd
  · have hD := hev hB
    have hm := eventMarker_ne_nil fr.FileEvent
    have hmlen : (eventMarker fr.FileEvent).length ≠ 0 := by
      simpa [List.length_eq_zero] using hm
    have hread1 : (⟨fr :: rest, scc, scl, none, 0, 0, [], sbo⟩ : FrameReader).read cap =
        (ReadResult.bytes (((eventMarker fr.FileEvent).drop 0).take cap),
         ⟨rest, scc, scl, some fr, 0,
          0 + (((eventMarker fr.FileEvent).drop 0).take cap).length,
          eventMarker fr.FileEvent, fr.Offset⟩) := by
      rw [read_recv _ fr rest cap rfl rfl,
        readBody_marker _ fr cap _ (initEvent_fresh _ fr hB rfl) hmlen
          (by simpa using hmlen)]
    have hn1 : ((((eventMarker fr.FileEvent).drop 0).take cap).length) =
        min cap (eventMarker fr.FileEvent).length := by
      rw [List.length_take, List.length_drop]
      omega
    have hmd := marker_drain cap hc
      ((eventMarker fr.FileEvent).length -
        (((eventMarker fr.FileEvent).drop 0).take cap).length)
      ⟨rest, scc, scl, some fr, 0,
        0 + (((eventMarker fr.FileEvent).drop 0).take cap).length,
        eventMarker fr.FileEvent, fr.Offset⟩
      fr rfl hm (by show 0 + _ + _ = (eventMarker fr.FileEvent).length; omega)
    have hre := read_eventOnly_done
      ⟨rest, scc, scl, some fr, 0, (eventMarker fr.FileEvent).length,
        eventMarker fr.FileEvent, fr.Offset⟩ fr cap rfl hD hm rfl rfl
    have hfb : frameBytes fr = eventMarker fr.FileEvent := by
      simp [frameBytes, hB, hD]
    rw [hfb]
    have hsplit : eventMarker fr.FileEvent =
        ((eventMarker fr.FileEvent).drop 0).take cap ++
          ((eventMarker fr.FileEvent).drop
              (0 + (((eventMarker fr.FileEvent).drop 0).take cap).length) ++
            (([] : List Byte) ++ [])) := by
      simp only [List.append_nil]
      conv_lhs => rw [← List.drop_zero (eventMarker fr.FileEvent)]
      exact chunk_split (eventMarker fr.FileEvent) 0 cap
    rw [hsplit]
    exact Drains.step hread1
      (Drains.trans hmd (Drains.step hre (Drains.refl _)))

/-- Draining a whole frame sequence from a fresh reader state: the reads
emit exactly the expected output and end with no frame and an exhausted
channel. -/
theorem drain_all (cap : Nat) (hc : 0 < cap) :
    ∀ (fs : List StreamFrame) (scc scl : Bool) (sbo : Int),
      (∀ fr ∈ fs, fr.FileEvent ≠ "" → fr.Data = []) →
      ∃ t, Drains cap ⟨fs, scc, scl, none, 0, 0, [], sbo⟩ (expectedOutput fs) t ∧
        t.frame = none ∧ t.frames = [] := by
  intro fs
  induction fs with
  | nil =>
    intro scc scl sbo _
    exact ⟨⟨[], scc, scl, none, 0, 0, [], sbo⟩, Drains.refl _, rfl, rfl⟩
  | cons fr rest ih =>
    intro scc scl sbo hev
    obtain ⟨t, ht, ht1, ht2⟩ := ih scc scl fr.Offset
      (fun g hg hgev => hev g (List.mem_cons_of_mem fr hg) hgev)
    refine ⟨t, ?_, ht1, ht2⟩
    have hout : expectedOutput (fr :: rest) = frameBytes fr ++ expectedOutput rest := by
      simp [expectedOutput]
    rw [hout]
    exact Drains.trans
      (frame_drain cap hc fr rest scc scl sbo (hev fr (List.mem_cons_self fr rest))) ht

/-- Claim C1, amended: for every sequence of non-heartbeat frames in which
every frame carrying a non-empty event carries no data (as the server
produces), reading the stream to `io.EOF` with any fixed positive buffer
capacity yields exactly, per frame in channel order, the inline event
marker (when the event is non-empty) followed by that frame's data bytes.
(As stated the claim fails: a frame with both an event and data has its
marker re-injected before every data chunk, see the counterexample.) -/
theorem claim1_amended_stream_reassembly (fs : List StreamFrame) (cap : Nat)
    (hc : 0 < cap)
    (_hhb : ∀ fr ∈ fs, fr.IsHeartbeat = false)
    (hev : ∀ fr ∈ fs, fr.FileEvent ≠ "" → fr.Data = []) :
    ∃ fuel, ∀ g, fuel ≤ g →
      FrameReader.readAll cap g (NewFrameReader fs) = some (expectedOutput fs) := by
  obtain ⟨t, ht, h1, h2⟩ := drain_all cap hc fs false false 0 hev
  exact drains_readAll ht h1 h2

/-- Witness for the amended claim C1: a data frame followed by an event-only
frame, read byte by byte. -/
theorem claim1_witness :
    ∃ fuel, ∀ g, fuel ≤ g →
      FrameReader.readAll 1 g
          (NewFrameReader [⟨0, [104, 105], "f", ""⟩, ⟨2, [], "f", "file deleted"⟩]) =
        some (expectedOutput [⟨0, [104, 105], "f", ""⟩, ⟨2, [], "f", "file deleted"⟩]) :=
  claim1_amended_stream_reassembly
    [⟨0, [104, 105], "f", ""⟩, ⟨2, [], "f", "file deleted"⟩] 1
    (by decide) (by decide) (by decide)

/-- Claim C8: each of the four `StreamFrame` fields is omitted from the JSON
encoding when at its zero/empty value (`json:",omitempty"`), so a heartbeat
frame serializes as the two-character object `\x7b\x7d`. -/
theorem claim8_omitempty_heartbeat (s : StreamFrame) :
    (s.Offset = 0 → ∀ v, ("Offset", v) ∉ s.jsonFields) ∧
    (s.Data = [] → ∀ v, ("Data", v) ∉ s.jsonFields) ∧
    (s.File = "" → ∀ v, ("File", v) ∉ s.jsonFields) ∧
    (s.FileEvent = "" → ∀ v, ("FileEvent", v) ∉ s.jsonFields) ∧
    (s.IsHeartbeat = true → s.encodeJSON = "\x7b\x7d") := by
  refine ⟨?_, ?_, ?_, ?_, ?_⟩
  · intro h v
    simp only [StreamFrame.jsonFields, h, if_pos rfl]
    split_ifs <;> simp
  · intro h v
    simp only [StreamFrame.jsonFields, h, if_pos rfl]
    split_ifs <;> simp
  · intro h v
    simp only [StreamFrame.jsonFields, h, if_pos rfl]
    split_ifs <;> simp
  · intro h v
    simp only [StreamFrame.jsonFields, h, if_pos rfl]
    split_ifs <;> simp
  · intro hb
    obtain ⟨hd, hfl, hevt, hof⟩ := (isHeartbeat_spec s).mp hb
    simp only [StreamFrame.encodeJSON, StreamFrame.jsonFields, hd, hfl, hevt, hof,
      if_pos rfl]
    decide

/-- Witness for claim C8: the all-zero heartbeat frame encodes as `\x7b\x7d`. -/
theorem claim8_witness :
    StreamFrame.encodeJSON ⟨0, [], "", ""⟩ = "\x7b\x7d" :=
  (claim8_omitempty_heartbeat ⟨0, [], "", ""⟩).2.2.2.2 (by decide)

/-- Claim C9 (StreamFramer modelled from the spec): whenever a `Send` call
makes the pending frame's accumulated data reach the frame-size threshold
`F`, the pending frame is flushed to the sink before that `Send` returns,
carrying the full accumulated data — both when data is appended to a
same-key pending frame and when a fresh pending frame is created. -/
theorem claim9_flush_on_frame_size (sf : StreamFramer) (file event : String)
    (data : List Byte) (offset : Int) :
    (∀ p, sf.pending = some p → p.File = file → p.FileEvent = event →
        sf.frameSize ≤ p.Data.length + data.length →
        (sf.Send file event data offset).pending = none ∧
        (sf.Send file event data offset).out =
          sf.out ++ [⟨p.Offset, p.Data ++ data, file, event⟩]) ∧
    (sf.pending = none → sf.frameSize ≤ data.length →
        (sf.Send file event data offset).pending = none ∧
        (sf.Send file event data offset).out = sf.out ++ [⟨offset, data, file, event⟩]) := by
  constructor
  · intro p hp hfile hevent hsize
    simp only [StreamFramer.Send, hp]
    rw [if_neg (by simp [hfile, hevent])]
    simp only [hp]
    rw [if_pos (by simpa using hsize)]
    simp [StreamFramer.Flush, hfile, hevent]
  · intro hp hsize
    simp only [StreamFramer.Send, hp]
    rw [if_pos (by simpa using hsize)]
    simp [StreamFramer.Flush]

/-- Witness for claim C9: the `TestStreamFramer_Batch` scenario with
`F = 3` — `Send("foo","bar",[0x0a],10)` then `Send("foo","bar",[0x0b,0x0c],10)`
flushes one frame carrying all three bytes at offset 10. -/
theorem claim9_witness :
    (batchDemo1.Send "foo" "bar" [11, 12] 10).pending = none ∧
      (batchDemo1.Send "foo" "bar" [11, 12] 10).out =
        [⟨10, [10, 11, 12], "foo", "bar"⟩] := by
  have h := (claim9_flush_on_frame_size batchDemo1 "foo" "bar" [11, 12] 10).1
    ⟨10, [10], "foo", "bar"⟩ (by decide) rfl rfl (by decide)
  refine ⟨h.1, ?_⟩
  rw [h.2]
  decide

end NomadFS